import Mathlib

/-!
Verification development for the `core` problem type of faf
(`src/pyfaf/problemtypes/core.py`, class `CoredumpProblem`).

The Python code is shallowly embedded below.  Raw uReports are JSON-like
dictionaries; we embed the post-shape domain as records whose fields are
`Option`-valued (a `none` field models an absent dictionary key).  Machine
integers are embedded as `Int`/`Nat`.  Functions that can raise are embedded
in `Except String`.  External collaborators that live outside the sources
(`pyfaf.checker`, `pyfaf.utils.hash.hash_list`, `pyfaf.common.get_libname`,
`pyfaf.retrace.{addr2line,get_base_address,demangle}`, the storage layer)
are modelled from the spec where noted.
-/

/-! ## String helpers

`str.lower()` and the `"jit" in s` containment test of
`CoredumpProblem.validate_ureport`, embedded structurally so that concrete
inputs evaluate inside the kernel. -/

/-- ASCII-faithful model of Python `str.lower()` (the code only ever
searches for the ASCII substring "jit", so ASCII lowering suffices). -/
def strLower (s : String) : String := String.mk (s.data.map Char.toLower)

/-- `p` is a prefix of the second character list. -/
def startsWithChars : List Char → List Char → Bool
  | [], _ => true
  | _ :: _, [] => false
  | p :: ps, c :: cs => p == c && startsWithChars ps cs

/-- `p` occurs as a contiguous substring of the second character list. -/
def containsChars (p : List Char) : List Char → Bool
  | [] => startsWithChars p []
  | c :: cs => startsWithChars p (c :: cs) || containsChars p cs

/-- Python `"jit" in frame["function_name"].lower()`. -/
def containsJit (s : String) : Bool := containsChars "jit".data (strLower s).data

/-! ## Raw uReport data model

A frame dictionary of the `stacktrace` entry of a raw uReport.  `none`
models an absent key.  (Field value types follow the schema declared in
`CoredumpProblem.checker`; raw inputs with wrongly-typed fields are outside
this embedding and rejected by the checker anyway.) -/

structure RawFrame where
  address : Option Int
  build_id_offset : Option Int
  file_name : Option String
  build_id : Option String
  fingerprint : Option String
  function_name : Option String
deriving DecidableEq, Repr

/-- A thread dictionary of the `stacktrace` list. -/
structure RawThread where
  crash_thread : Option Bool
  frames : List RawFrame
deriving DecidableEq, Repr

/-- A raw uReport dictionary (the fields `CoredumpProblem` reads). -/
structure Ureport where
  signal : Option Int
  component : Option String
  executable : Option String
  user_root : Option Bool
  user_local : Option Bool
  stacktrace : Option (List RawThread)
deriving DecidableEq, Repr

/-! ## JIT repair pass (`validate_ureport`, lines 253-285)

The in-place repair loop of `CoredumpProblem.validate_ureport`: scan each
thread's frames keeping the last file name seen on a frame whose function
name contains "jit" (case-insensitive); fill missing file names from it and
missing (or `"??"`) function names with `"anonymous function"`; afterwards
patch the last frame of the thread. -/

/-- Python truthiness of `"function_name" not in frame or
frame["function_name"] == "??"`. -/
def fnMissingOrPlaceholder (f : RawFrame) : Bool :=
  match f.function_name with
  | none => true
  | some s => s == "??"

/-- The `jit_fname` state update performed at one frame (lines 264-268):
a frame carrying both a file name and a jit-ish function name becomes the
remembered JIT source. -/
def stepState (j : Option String) (f : RawFrame) : Option String :=
  match f.file_name, f.function_name with
  | some fn, some func => if containsJit func then some fn else j
  | _, _ => j

/-- The repair performed on one frame (lines 270-275): a frame lacking a
file name, with a remembered JIT source, gets that file name, and gets
`"anonymous function"` if its function name is absent or `"??"`.
Mirrors the source's control flow: `jit_fname` is updated first, but a
frame that lacks `file_name` can never update it, so the state used by
the fill is the incoming one. -/
def stepFrame (j : Option String) (f : RawFrame) : RawFrame :=
  let j' := stepState j f
  match f.file_name with
  | some _ => f
  | none =>
      match j' with
      | none => f
      | some fn =>
          { f with
            file_name := some fn
            function_name :=
              if fnMissingOrPlaceholder f then some "anonymous function"
              else f.function_name }

/-- The frame scan of the repair pass, threading `jit_fname`. -/
def scanGo (j : Option String) : List RawFrame → List RawFrame
  | [] => []
  | f :: fs => stepFrame j f :: scanGo (stepState j f) fs

/-- The last-frame patch (lines 277-285): a last frame still lacking a
file name gets `"unknown filename"`; one whose function name is still
absent or `"??"` gets `"anonymous function"`.  The two conditions are
checked independently, exactly as in the source. -/
def fixFrame (f : RawFrame) : RawFrame :=
  let f1 :=
    match f.file_name with
    | none => { f with file_name := some "unknown filename" }
    | some _ => f
  if fnMissingOrPlaceholder f1 then { f1 with function_name := some "anonymous function" }
  else f1

/-- Apply `fixFrame` to the last element of a list (`thread["frames"][-1]`). -/
def fixLast : List RawFrame → List RawFrame
  | [] => []
  | [f] => [fixFrame f]
  | f :: g :: fs => f :: fixLast (g :: fs)

/-- Full repair of one thread's frame list: the scan starting with no
remembered JIT source, then the last-frame patch. -/
def repairFrames (fs : List RawFrame) : List RawFrame :=
  fixLast (scanGo none fs)

/-- Repair of one thread dictionary. -/
def repairThread (t : RawThread) : RawThread :=
  { t with frames := repairFrames t.frames }

/-- The whole repair pass of `validate_ureport` (lines 253-285): every
thread of the stacktrace is repaired; a report without a `stacktrace`
list is left untouched. -/
def repairUreport (u : Ureport) : Ureport :=
  { u with stacktrace := u.stacktrace.map (List.map repairThread) }

/-! ## Schema checker (`CoredumpProblem.checker`, lines 64-96)

Modelled from the spec: the classes of `pyfaf.checker` are not among the
sources; their behaviour is reconstructed from the checker declaration in
`core.py` together with spec section 4.1 (mandatory fields must be present,
`IntChecker(minval=0)` bounds below, `StringChecker` enforces a maximum
length and an optional character pattern; `mandatory=False` fields may be
absent but must validate when present).  The storage-column length limits
(`column_len(...)`) are configuration; they are modelled as fixed constants
since no claim depends on their exact values. -/

/-- Modelled from the spec: `column_len(OpSysComponent, "name")` etc.; a
generic storage column length stand-in. -/
def columnLenDefault : Nat := 256

/-- Character class of the `component` pattern `^[a-zA-Z0-9\-\._]+$`. -/
def componentChar (c : Char) : Bool :=
  c.isAlpha || c.isDigit || c == '-' || c == '.' || c == '_'

/-- `StringChecker(pattern=r"^[a-zA-Z0-9\-\._]+$")`. -/
def componentPattern (s : String) : Bool :=
  s.length ≥ 1 && s.data.all componentChar

/-- Character class of the hex patterns `^[a-fA-F0-9]+$`. -/
def hexChar (c : Char) : Bool :=
  c.isDigit || (('a' ≤ c && c ≤ 'f') || ('A' ≤ c && c ≤ 'F'))

/-- `StringChecker(pattern=r"^[a-fA-F0-9]+$")`. -/
def hexPattern (s : String) : Bool :=
  s.length ≥ 1 && s.data.all hexChar

/-- The frame `DictChecker` (lines 78-94): `address` and `build_id_offset`
mandatory and ≥ 0, `file_name` mandatory, `build_id`/`fingerprint`
optional hex strings, `function_name` optional. -/
def checkFrame (f : RawFrame) : Bool :=
  (match f.address with | some a => 0 ≤ a | none => false) &&
  (match f.build_id_offset with | some o => 0 ≤ o | none => false) &&
  (match f.file_name with | some s => s.length ≤ columnLenDefault | none => false) &&
  (match f.build_id with
   | some s => hexPattern s && s.length ≤ columnLenDefault
   | none => true) &&
  (match f.fingerprint with
   | some s => hexPattern s && s.length ≤ columnLenDefault
   | none => true) &&
  (match f.function_name with
   | some s => s.length ≤ columnLenDefault
   | none => true)

/-- The thread `DictChecker` (lines 76-95): optional `crash_thread` bool,
mandatory `frames` list with `minlen=1`. -/
def checkThread (t : RawThread) : Bool :=
  t.frames.length ≥ 1 && t.frames.all checkFrame

/-- The top-level `DictChecker` (lines 64-96). -/
def checkUreport (u : Ureport) : Bool :=
  (match u.signal with | some s => 0 ≤ s | none => false) &&
  (match u.component with
   | some c => componentPattern c && c.length ≤ columnLenDefault
   | none => false) &&
  (match u.executable with | some e => e.length ≤ columnLenDefault | none => false) &&
  u.user_root.isSome && u.user_local.isSome &&
  (match u.stacktrace with
   | some st => st.length ≥ 1 && st.all checkThread
   | none => false)

/-! ## Crash thread selection (`_get_crash_thread`, lines 122-136) -/

/-- Python truthiness of `"crash_thread" in t and t["crash_thread"]`. -/
def isCrashThread (t : RawThread) : Bool := t.crash_thread.getD false

/-- `CoredumpProblem._get_crash_thread`: the frames of the single crash
thread, or a `FafError`. -/
def get_crash_thread (stacktrace : List RawThread) : Except String (List RawFrame) :=
  match stacktrace.filter isCrashThread with
  | [] => .error "No crash thread found"
  | [t] => .ok t.frames
  | _ :: _ :: _ => .error "Multiple crash threads found"

/-- `CoredumpProblem.validate_ureport` (lines 245-291): repair, then the
schema check, then the crash-thread uniqueness check.  Returns the
repaired report on success (the Python code mutates `ureport` in place and
returns `True`; the repaired dictionary is what the caller keeps using). -/
def validate_ureport (u : Ureport) : Except String Ureport :=
  let u' := repairUreport u
  if checkUreport u' then
    match u'.stacktrace with
    | some st => (get_crash_thread st).map (fun _ => u')
    | none => .error "SchemaViolation"
  else .error "SchemaViolation"

/-! ## Backtrace hashing (`_hash_backtrace`, lines 138-171 and
`hash_ureport`, lines 293-312) -/

/-- Modelled from the spec: `pyfaf.utils.hash.hash_list` (not among the
sources), "a stable, order-sensitive digest" over an ordered list of
strings; modelled as an injective-on-these-inputs joining of the list. -/
def hash_list (l : List String) : String := String.intercalate "\n" l

/-- The three candidate hash keys, in the order the code tries them. -/
inductive HashKey where
  | function_name
  | fingerprint
  | build_id_offset
deriving DecidableEq, Repr

/-- `frame[key]` as the string that Python interpolates into the hash base
(`build_id_offset` is an int and is rendered by `format`). -/
def keyVal (k : HashKey) (f : RawFrame) : Option String :=
  match k with
  | .function_name => f.function_name
  | .fingerprint => f.fingerprint
  | .build_id_offset => f.build_id_offset.map toString

/-- Python `key in f`. -/
def frameHasKey (k : HashKey) (f : RawFrame) : Bool := (keyVal k f).isSome

/-- The per-key sanity test of `_hash_backtrace` (lines 144-149): every
frame of every thread must carry the key. -/
def keyUsable (k : HashKey) (backtrace : List RawThread) : Bool :=
  backtrace.all (fun t => t.frames.all (frameHasKey k))

/-- `frame["file_name"].encode("ascii", "ignore")`: non-ASCII characters
are dropped.  (Python renders the resulting bytes object with a `b` repr
prefix inside the format string; that decoration is constant and is
omitted here, no claim depends on the rendered text.) -/
def asciiIgnore (s : String) : String :=
  String.mk (s.data.filter (fun c => c.val ≤ 127))

/-- One `"  {0} @ {1} ({2})"` line of the hash base (lines 163-167);
only evaluated under `keyUsable`, so a missing key renders as `""`. -/
def hashBaseFrameLine (k : HashKey) (f : RawFrame) : String :=
  "  " ++ (keyVal k f).getD "" ++ " @ " ++ asciiIgnore (f.file_name.getD "") ++
    " (" ++ (match f.build_id with | some b => b | none => "None") ++ ")"

/-- The hash-base lines contributed by one thread (lines 151-167). -/
def hashBaseThread (k : HashKey) (t : RawThread) : List String :=
  (if isCrashThread t then "Crash Thread" else "Thread") ::
    t.frames.map (hashBaseFrameLine k)

/-- The whole hash base for one key (lines 151-167). -/
def hashBase (k : HashKey) (backtrace : List RawThread) : List String :=
  backtrace.flatMap (hashBaseThread k)

/-- `CoredumpProblem._hash_backtrace`: one digest per usable key, in key
order. -/
def hash_backtrace (backtrace : List RawThread) : List String :=
  ([HashKey.function_name, HashKey.fingerprint, HashKey.build_id_offset].filter
      (fun k => keyUsable k backtrace)).map
    (fun k => hash_list (hashBase k backtrace))

/-- The key selection of `hash_ureport` (lines 297-302): `function_name`
if uniformly present on the crash thread, else `fingerprint` if uniformly
present, else `build_id_offset`. -/
def selectKey (crashthread : List RawFrame) : HashKey :=
  if crashthread.all (frameHasKey .function_name) then .function_name
  else if crashthread.all (frameHasKey .fingerprint) then .fingerprint
  else .build_id_offset

/-- One `"{0} @ {1}"` line of the short-hash base (line 310); `frame[key]`
or `frame["file_name"]` being absent is a Python `KeyError`. -/
def shortHashLine (k : HashKey) (f : RawFrame) : Except String String :=
  match keyVal k f, f.file_name with
  | some v, some fn => .ok (v ++ " @ " ++ fn)
  | _, _ => .error "KeyError"

/-- `CoredumpProblem.hash_ureport` (lines 293-312), with the configured
`self.hashframes` bound passed explicitly: the component, then one line
per crash-thread frame, truncated to the first `hashframes` frames. -/
def hash_ureport (hashframes : Nat) (u : Ureport) : Except String String := do
  let crashthread ← get_crash_thread ((u.stacktrace).getD [])
  let comp ←
    match u.component with
    | some c => Except.ok c
    | none => Except.error "KeyError"
  let key := selectKey crashthread
  let lines ← (crashthread.take hashframes).mapM (shortHashLine key)
  pure (hash_list (comp :: lines))

/-- The default of the `processing.hashframes` configuration key
(`CoredumpProblem.__init__`, line 103). -/
def defaultHashframes : Nat := 16

/-! ## Storage data model

The relevant columns of `pyfaf.storage` records (`Symbol`, `SymbolSource`,
`ReportBtFrame`, `ReportBtThread`, `ReportBacktrace`, `ReportBtHash`,
`ReportExecutable`, `Report`).  Object identity of the Python ORM objects
is modelled by numeric ids; the stores are association lists from id to
record.  Session semantics: `db.session.add` makes an object visible to
the `get_*` query helpers (SQLAlchemy autoflush semantics); none of the
claims below is sensitive to this choice because every freshly created
object is also recorded in the per-batch caches that are consulted when a
query misses. -/

/-- `pyfaf.storage.Symbol` (columns used by `core.py`). -/
structure SymbolRec where
  name : String
  normalized_path : String
  nice_name : Option String
deriving DecidableEq, Repr

/-- `pyfaf.storage.SymbolSource` (columns used by `core.py`); the spec's
CanonicalLocation.  `symbol` holds the id of the owning `SymbolRec`. -/
structure SymbolSourceRec where
  build_id : Option String
  path : String
  offset : Int
  symbol : Option Nat
  source_path : Option String
  line_number : Option Int
  hash : Option String
  retrace_fail_count : Nat
deriving DecidableEq, Repr

/-- `pyfaf.storage.ReportBtFrame`: `ssource` holds the id of the
referenced `SymbolSourceRec`; `fid` models Python object identity. -/
structure FrameRec where
  fid : Nat
  order : Int
  ssource : Nat
  inlined : Bool
deriving DecidableEq, Repr

/-- `pyfaf.storage.ReportBtThread` with its frame collection in insertion
(append) order, exactly as the ORM relationship the code iterates. -/
structure ThreadRec where
  number : Nat
  crashthread : Bool
  frames : List FrameRec
deriving DecidableEq, Repr

/-- `pyfaf.storage.ReportBacktrace` with its `ReportBtHash` rows and
thread collection. -/
structure BacktraceRec where
  hashes : List String
  threads : List ThreadRec
deriving DecidableEq, Repr

/-- `pyfaf.storage.ReportExecutable` (path and count). -/
structure ExeRec where
  path : String
  count : Nat
deriving DecidableEq, Repr

/-- `pyfaf.storage.Report` (fields used by `core.py`). -/
structure ReportRec where
  errname : Option String
  backtraces : List BacktraceRec
  executables : List ExeRec
deriving DecidableEq, Repr

/-- The shared symbol/location store (spec section 4.4) plus fresh-id
counters for newly created ORM objects. -/
structure DbState where
  symbols : List (Nat × SymbolRec)
  ssources : List (Nat × SymbolSourceRec)
  nextSymId : Nat
  nextSSId : Nat
  nextFrameId : Nat
deriving DecidableEq, Repr

/-- Read a symbol record by id. -/
def findSymbol (l : List (Nat × SymbolRec)) (i : Nat) : Option SymbolRec :=
  (l.find? (fun e => e.1 == i)).map (fun e => e.2)

/-- Read a location record by id. -/
def findSS (l : List (Nat × SymbolSourceRec)) (i : Nat) : Option SymbolSourceRec :=
  (l.find? (fun e => e.1 == i)).map (fun e => e.2)

/-- In-place mutation of the symbol object with id `i`. -/
def updateSymbol (i : Nat) (g : SymbolRec → SymbolRec) (l : List (Nat × SymbolRec)) :
    List (Nat × SymbolRec) :=
  l.map (fun e => if e.1 == i then (e.1, g e.2) else e)

/-- In-place mutation of the location object with id `i`. -/
def updateSS (i : Nat) (g : SymbolSourceRec → SymbolSourceRec)
    (l : List (Nat × SymbolSourceRec)) : List (Nat × SymbolSourceRec) :=
  l.map (fun e => if e.1 == i then (e.1, g e.2) else e)

/-- `pyfaf.queries.get_symbol_by_name_path` (modelled from the spec:
CRUD-by-identity lookup of a `Symbol` by `(name, normalized_path)`). -/
def get_symbol_by_name_path (db : DbState) (name norm : String) : Option Nat :=
  (db.symbols.find? (fun e => e.2.name == name && e.2.normalized_path == norm)).map
    (fun e => e.1)

/-- A `(build_id, path, offset)` location identity. -/
def SSKey : Type := Option String × String × Int
deriving instance DecidableEq, BEq for SSKey

/-- `pyfaf.queries.get_ssource_by_bpo` (modelled from the spec:
CRUD-by-identity lookup of a `SymbolSource` by `(build_id, path,
offset)`). -/
def get_ssource_by_bpo (db : DbState) (k : SSKey) : Option Nat :=
  (db.ssources.find? (fun e =>
      e.2.build_id == k.1 && e.2.path == k.2.1 && e.2.offset == k.2.2)).map
    (fun e => e.1)

/-- The per-batch `new_symbols` pending-insert cache. -/
def SymCache : Type := List ((String × String) × Nat)
deriving instance DecidableEq, Repr for SymCache

/-- The per-batch `new_symbolsources` pending-insert cache. -/
def SSCache : Type := List (SSKey × Nat)
deriving instance DecidableEq for SSCache

/-- Modelled from the spec: `pyfaf.common.get_libname` normalizes a binary
path by stripping package-install-root prefixes; a fixed deterministic
normalization (no claim depends on its exact output). -/
def get_libname (path : String) : String := path

/-- Modelled from the spec: `os.path.abspath`, a fixed path
normalization (no claim depends on its exact output). -/
def abspath (path : String) : String := path

/-- Modelled from the spec: the external symbol-demangling step
`pyfaf.retrace.demangle` (black box), a fixed function. -/
def demangle (funcname : String) : String := funcname

/-- The symbol get-or-create logic shared verbatim by `save_ureport`
(lines 381-398) and by both symbol sites of `retrace` (lines 587-599 and
631-643): query the store, then the `new_symbols` cache, else create a
`Symbol`, add it, and cache it.  Returns the symbol id with the updated
store and cache. -/
def getOrCreateSymbol (db : DbState) (cache : SymCache) (name norm : String) :
    Nat × DbState × SymCache :=
  match get_symbol_by_name_path db name norm with
  | some i => (i, db, cache)
  | none =>
      match List.lookup (name, norm) cache with
      | some i => (i, db, cache)
      | none =>
          let i := db.nextSymId
          (i,
           { db with
             symbols := (i, { name := name, normalized_path := norm, nice_name := none })
               :: db.symbols
             nextSymId := i + 1 },
           ((name, norm), i) :: cache)

/-- The location get-or-create logic of `save_ureport` (lines 400-416):
query the store by `(build_id, path, offset)`, then the
`new_symbolsources` cache, else create a `SymbolSource` carrying the
frame's symbol and fingerprint, add it, and cache it. -/
def getOrCreateSSourceSave (db : DbState) (cache : SSCache) (k : SSKey)
    (sym : Option Nat) (fingerprint : Option String) : Nat × DbState × SSCache :=
  match get_ssource_by_bpo db k with
  | some i => (i, db, cache)
  | none =>
      match List.lookup k cache with
      | some i => (i, db, cache)
      | none =>
          let i := db.nextSSId
          let r : SymbolSourceRec :=
            { build_id := k.1, path := k.2.1, offset := k.2.2, symbol := sym,
              source_path := none, line_number := none, hash := fingerprint,
              retrace_fail_count := 0 }
          (i,
           { db with ssources := (i, r) :: db.ssources, nextSSId := i + 1 },
           (k, i) :: cache)

/-! ## `save_ureport` (lines 314-426) -/

/-- `get_reportexe` (modelled from the spec: lookup of the report's
`ReportExecutable` row by path). -/
def get_reportexe (l : List ExeRec) (p : String) : Option ExeRec :=
  l.find? (fun e => e.path == p)

/-- Lines 317-325: bump the matching executable's count by `count`,
creating the row (with count 0) first when absent. -/
def bumpExe (p : String) (c : Nat) : List ExeRec → List ExeRec
  | [] => [{ path := p, count := c }]
  | e :: es => if e.path == p then { e with count := e.count + c } :: es
               else e :: bumpExe p c es

/-- Accumulator of the frame loop of `save_ureport` (lines 357-423):
store, the two per-batch caches, the stride-10 frame order counter `fid`,
and the frames built so far for the current thread. -/
structure SaveAcc where
  db : DbState
  symCache : SymCache
  ssCache : SSCache
  fid : Int
  frames : List FrameRec

/-- One iteration of the frame loop of `save_ureport` (lines 358-423):
bump `fid` by 10, get-or-create the symbol when the frame names a
function, get-or-create the location, and append a non-inlined
`ReportBtFrame`.  A frame lacking `file_name` or `build_id_offset` is a
Python `KeyError` (unreachable for checked input). -/
def saveFrameStep (acc : SaveAcc) (f : RawFrame) : Except String SaveAcc := do
  let fid := acc.fid + 10
  let path ←
    match f.file_name with
    | some p => Except.ok (abspath p)
    | none => Except.error "KeyError: file_name"
  let offset ←
    match f.build_id_offset with
    | some o => Except.ok o
    | none => Except.error "KeyError: build_id_offset"
  let (sym, db1, sc1) :=
    match f.function_name with
    | none => (none, acc.db, acc.symCache)
    | some fn =>
        let norm := get_libname path
        let (i, db1, sc1) := getOrCreateSymbol acc.db acc.symCache fn norm
        (some i, db1, sc1)
  let (ssid, db2, ssc1) :=
    getOrCreateSSourceSave db1 acc.ssCache (f.build_id, path, offset) sym f.fingerprint
  let fr : FrameRec :=
    { fid := db2.nextFrameId, order := fid, ssource := ssid, inlined := false }
  pure { db := { db2 with nextFrameId := db2.nextFrameId + 1 },
         symCache := sc1, ssCache := ssc1, fid := fid,
         frames := acc.frames ++ [fr] }

/-- The thread loop of `save_ureport` (lines 346-423), threading the
store and both caches; each thread numbers from `tid`, restarts `fid`
at 0, and becomes a `ReportBtThread` with its built frames. -/
def saveThreadsGo (db : DbState) (sc : SymCache) (ssc : SSCache) (tid : Nat) :
    List RawThread → Except String (DbState × SymCache × SSCache × List ThreadRec)
  | [] => .ok (db, sc, ssc, [])
  | t :: ts => do
      let acc ← t.frames.foldlM saveFrameStep
        { db := db, symCache := sc, ssCache := ssc, fid := 0, frames := [] }
      let (db', sc', ssc', rest) ← saveThreadsGo acc.db acc.symCache acc.ssCache (tid + 1) ts
      pure (db', sc', ssc',
        { number := tid, crashthread := isCrashThread t, frames := acc.frames } :: rest)

/-- `CoredumpProblem.save_ureport` (lines 314-426): set `errname`, bump
the executable count, compute the backtrace hashes (raising `FafError`
when none is usable), and build the backtrace skeleton only when the
report has none yet.  Returns the updated store and report. -/
def save_ureport (db : DbState) (rep : ReportRec) (u : Ureport) (count : Nat) :
    Except String (DbState × ReportRec) := do
  let sg ←
    match u.signal with
    | some s => Except.ok s
    | none => Except.error "KeyError: signal"
  let ex ←
    match u.executable with
    | some e => Except.ok e
    | none => Except.error "KeyError: executable"
  let rep1 : ReportRec :=
    { rep with errname := some (toString sg), executables := bumpExe ex count rep.executables }
  let st ←
    match u.stacktrace with
    | some s => Except.ok s
    | none => Except.error "KeyError: stacktrace"
  let bthashes := hash_backtrace st
  if bthashes = [] then Except.error "Unable to get backtrace hash"
  else if rep1.backtraces = [] then do
    let (db', _, _, threads) ← saveThreadsGo db [] [] 1 st
    pure (db', { rep1 with backtraces := [{ hashes := bthashes, threads := threads }] })
  else pure (db, rep1)

/-! ## Retracer (`retrace`, lines 528-663)

The retrace pass walks the task's binary packages and, per
`SymbolSource`, either bumps `retrace_fail_count` (missing unpacked
package, failing base-address probe, failing resolver) or consumes the
resolver's tuple list: `results.reverse()` followed by repeated
`results.pop()` consumes the ORIGINAL resolver output front to back, so
the recursion below walks the un-reversed list; while more than one tuple
remains each tuple becomes an inlined expansion, and the single remaining
tuple is written into the original location.  The on-disk cleanup at lines
652-663 (`shutil.rmtree` of the staged artifacts) is filesystem-only and
outside this embedding. -/

/-- One `(funcname, srcfile, srcline)` tuple of the resolver output. -/
structure Tup where
  funcname : String
  srcfile : String
  srcline : Int
deriving DecidableEq, Repr

/-- A binary/debug/source package of a `RetraceTask` (fields used by
`core.py`). -/
structure PackageRec where
  nvra : String
  unpacked_path : Option String
deriving DecidableEq, Repr

/-- A `RetraceTask` (spec section 6): an ordered mapping from binary
package to the ids of the `SymbolSource` rows it must resolve, plus the
unpacked paths of the debug-info and optional source packages. -/
structure RetraceTask where
  binary_packages : List (PackageRec × List Nat)
  debuginfo_unpacked : Option String
  source_unpacked : Option String
deriving DecidableEq, Repr

/-- Modelled from the spec: the external resolver collaborators
`pyfaf.retrace.get_base_address` and `pyfaf.retrace.addr2line` (black
boxes with the contracts of spec section 6; per that contract the tuple
list is ordered outermost-to-innermost inlining). -/
structure Resolvers where
  base_address : String → Except String Int
  addr2line : String → Int → String → Except String (List Tup)

/-- `os.path.join` on an absolute staging root and a relative path. -/
def joinPath (a b : String) : String := a ++ "/" ++ b

/-- The mutable state a retrace run acts on: the shared store, every
stored thread's frame collection (keyed by thread id, frames in append
order exactly like the ORM relationship), and the two per-task caches. -/
structure RetraceState where
  db : DbState
  threads : List (Nat × List FrameRec)
  symCache : SymCache
  ssCache : SSCache
deriving DecidableEq

/-- `db_ssource.retrace_fail_count += 1`. -/
def bumpFail (i : Nat) (db : DbState) : DbState :=
  { db with
    ssources := updateSS i
      (fun r => { r with retrace_fail_count := r.retrace_fail_count + 1 }) db.ssources }

/-- `db_ssource.frames`: every stored frame referencing location `i`,
tagged with its thread id (threads in store order, frames in collection
order). -/
def ssourceFrames (threads : List (Nat × List FrameRec)) (i : Nat) :
    List (Nat × FrameRec) :=
  threads.flatMap (fun e => (e.2.filter (fun f => f.ssource == i)).map (fun f => (e.1, f)))

/-- `db_frame.thread.frames`: the current frame collection of thread
`tid`. -/
def threadFramesOf (threads : List (Nat × List FrameRec)) (tid : Nat) : List FrameRec :=
  ((threads.find? (fun e => e.1 == tid)).map (fun e => e.2)).getD []

/-- Append a freshly created frame to its thread's collection (the ORM
appends on `db_newframe.thread = ...`). -/
def appendFrame (tid : Nat) (f : FrameRec) (threads : List (Nat × List FrameRec)) :
    List (Nat × List FrameRec) :=
  threads.map (fun e => if e.1 == tid then (e.1, e.2 ++ [f]) else e)

/-- Insert `x` in front of the first element not `le`-below it: the
stable insertion step of `stableSort`. -/
def insertByOrder (le : α → α → Bool) (x : α) : List α → List α
  | [] => [x]
  | y :: ys => if le y x then y :: insertByOrder le x ys else x :: y :: ys

/-- Stable sort (model of Python's stable `sorted`). -/
def stableSort (le : α → α → Bool) : List α → List α
  | [] => []
  | x :: xs => insertByOrder le x (stableSort le xs)

/-- Lines 611-627 for ONE frame referencing the original location:
sort the frame's thread by `order`, locate the frame in the sorted list,
and — reproducing the source exactly — test the frame at the SORTED index
minus one of the UNSORTED collection; if that frame is an inlined frame
already referencing the synthetic location, skip, otherwise append a new
inlined `ReportBtFrame` at `order - inl_id`. -/
def insertInlinedForFrame (st : RetraceState) (inl_ss : Nat) (inl_id : Nat)
    (tid : Nat) (f : FrameRec) : RetraceState :=
  let tframes := threadFramesOf st.threads tid
  let sorted := stableSort (fun a b => decide (a.order ≤ b.order)) tframes
  let idx := sorted.findIdx (fun g => g.fid == f.fid)
  let skip := decide (0 < idx) &&
    (match tframes.get? (idx - 1) with
     | some prev => prev.inlined && prev.ssource == inl_ss
     | none => false)
  if skip then st
  else
    let nf : FrameRec :=
      { fid := st.db.nextFrameId, order := f.order - (inl_id : Int),
        ssource := inl_ss, inlined := true }
    { st with
      db := { st.db with nextFrameId := st.db.nextFrameId + 1 }
      threads := appendFrame tid nf st.threads }

/-- Lines 580-609: get or create the synthetic inlined location keyed by
`(build_id, path, -srcline)`; on creation (and only then) the inlined
symbol is itself looked up or created.  Returns the location id and the
updated state. -/
def getOrCreateInlSSource (st : RetraceState) (ss_bid : Option String)
    (ss_path norm_path : String) (t : Tup) : Nat × RetraceState :=
  let offset : Int := -t.srcline
  match get_ssource_by_bpo st.db (ss_bid, ss_path, offset) with
  | some i => (i, st)
  | none =>
      let key : SSKey := (ss_bid, ss_path, offset)
      match List.lookup key st.ssCache with
      | some i => (i, st)
      | none =>
          let (symId, db1, sc1) := getOrCreateSymbol st.db st.symCache t.funcname norm_path
          let r : SymbolSourceRec :=
            { build_id := ss_bid, path := ss_path, offset := offset,
              symbol := some symId, source_path := some t.srcfile,
              line_number := some t.srcline, hash := none, retrace_fail_count := 0 }
          (db1.nextSSId,
           { st with
             db := { db1 with ssources := (db1.nextSSId, r) :: db1.ssources,
                               nextSSId := db1.nextSSId + 1 }
             symCache := sc1
             ssCache := (key, db1.nextSSId) :: st.ssCache })

/-- One iteration of the `while len(results) > 1` loop (lines 570-627):
get or create the synthetic location for the popped tuple, then expand it
next to every frame referencing the original location. -/
def insertInlined (st : RetraceState) (ss_bid : Option String)
    (ss_path norm_path : String) (ss_id : Nat) (inl_id : Nat) (t : Tup) : RetraceState :=
  let (inlSS, st1) := getOrCreateInlSSource st ss_bid ss_path norm_path t
  (ssourceFrames st1.threads ss_id).foldl
    (fun acc e => insertInlinedForFrame acc inlSS inl_id e.1 e.2) st1

/-- Lines 629-650, the final popped tuple: get or create its symbol,
demangle its `nice_name` when unset, and write symbol, source path and
line number into the original location. -/
def finalWrite (st : RetraceState) (ss_id : Nat) (norm_path : String) (t : Tup) :
    RetraceState :=
  let (symId, db1, sc1) := getOrCreateSymbol st.db st.symCache t.funcname norm_path
  let db2 :=
    match findSymbol db1.symbols symId with
    | some s =>
        if s.nice_name.isNone then
          { db1 with
            symbols := updateSymbol symId
              (fun r => { r with nice_name := some (demangle t.funcname) }) db1.symbols }
        else db1
    | none => db1
  let db3 :=
    { db2 with
      ssources := updateSS ss_id
        (fun r => { r with symbol := some symId, source_path := some t.srcfile,
                           line_number := some t.srcline }) db2.ssources }
  { st with db := db3, symCache := sc1 }

/-- The reversed-pop consumption of the resolver output (lines 564-650):
while more than one tuple remains, the front tuple is expanded as an
inlined call with `inl_id` counting up from 1; the single remaining tuple
is the final write.  (On an empty resolver output the source raises an
uncaught `IndexError` at the final `results.pop()`; the resolver contract
yields at least one tuple, so the claims never touch that case.) -/
def processResultsGo (st : RetraceState) (ss_bid : Option String)
    (ss_path norm_path : String) (ss_id : Nat) (inl_id : Nat) :
    List Tup → RetraceState
  | [] => st
  | [t] => finalWrite st ss_id norm_path t
  | t :: t2 :: ts =>
      processResultsGo (insertInlined st ss_bid ss_path norm_path ss_id (inl_id + 1) t)
        ss_bid ss_path norm_path ss_id (inl_id + 1) (t2 :: ts)

/-- Resolver consumption for one location given the `addr2line` output. -/
def processResults (st : RetraceState) (ss_bid : Option String)
    (ss_path norm_path : String) (ss_id : Nat) (results : List Tup) : RetraceState :=
  processResultsGo st ss_bid ss_path norm_path ss_id 0 results

/-- Lines 537-650, one `SymbolSource` of one binary package: bump the
failure counter when the binary package has no unpacked path, when the
base-address probe fails, when the debug-info staging path is absent
(`os.path.join(None, ...)` raises inside the guarded block), or when the
resolver fails; otherwise consume the resolver output.  (The source reads
the location's record before testing `unpacked_path`; the read has no
effect, so the test is modelled first and the record is read only on the
success path.) -/
def processSSource (R : Resolvers) (dbg : Option String) (pkgUnpacked : Option String)
    (st : RetraceState) (ss_id : Nat) : RetraceState :=
  match pkgUnpacked with
  | none => { st with db := bumpFail ss_id st.db }
  | some up =>
      match findSS st.db.ssources ss_id with
      | none => st
      | some r =>
          let norm_path := get_libname r.path
          let binary := joinPath up (r.path.drop 1)
          match R.base_address binary with
          | .error _ => { st with db := bumpFail ss_id st.db }
          | .ok base =>
              match dbg with
              | none => { st with db := bumpFail ss_id st.db }
              | some dp =>
                  match R.addr2line binary (base + r.offset) (joinPath dp "usr/lib/debug") with
                  | .error _ => { st with db := bumpFail ss_id st.db }
                  | .ok results => processResults st r.build_id r.path norm_path ss_id results

/-- Lines 532-650 for one binary package: walk its locations. -/
def retracePackage (R : Resolvers) (dbg : Option String) (st : RetraceState)
    (pkg : PackageRec × List Nat) : RetraceState :=
  pkg.2.foldl (processSSource R dbg pkg.1.unpacked_path) st

/-- The package loop of `retrace`. -/
def retraceTaskGo (R : Resolvers) (dbg : Option String) (st : RetraceState) :
    List (PackageRec × List Nat) → RetraceState :=
  List.foldl (retracePackage R dbg) st

/-- `CoredumpProblem.retrace` (lines 528-663): fresh per-task caches,
then the package loop.  The trailing `shutil.rmtree` cleanup does not
touch the store. -/
def retrace (R : Resolvers) (task : RetraceTask) (db : DbState)
    (threads : List (Nat × List FrameRec)) : RetraceState :=
  retraceTaskGo R task.debuginfo_unpacked
    { db := db, threads := threads, symCache := [], ssCache := [] }
    task.binary_packages

/-- The effect `retrace` has on a package whose binary artifact is not
unpacked: every listed location's failure counter is bumped once per
occurrence, nothing else changes. -/
def bumpAllFail (ssids : List Nat) (st : RetraceState) : RetraceState :=
  ssids.foldl (fun acc i => { acc with db := bumpFail i acc.db }) st

/-! ## Satyr conversion (`db_report_to_satyr`, lines 173-238) -/

/-- A `satyr.GdbFrame` as filled by `_db_thread_to_satyr`. -/
structure SatyrFrame where
  address : Int
  library_name : String
  number : Int
  function_name : String
  source_file : Option String
  source_line : Option Int
deriving DecidableEq, Repr

/-- A `satyr.GdbThread` as filled by `_db_thread_to_satyr`. -/
structure SatyrThread where
  number : Nat
  frames : List SatyrFrame
deriving DecidableEq, Repr

/-- Fallback record for a dangling `ssource` id (stored frames always
reference stored locations; this case is unreachable on real stores). -/
def defaultSSRec : SymbolSourceRec :=
  { build_id := none, path := "", offset := 0, symbol := none, source_path := none,
    line_number := none, hash := none, retrace_fail_count := 0 }

/-- `CoredumpProblem._db_thread_to_satyr` (lines 173-202): copy offsets,
paths, orders, symbol names (`"??"` for a location without a symbol) and
source information into a satyr thread.  The optional in-place satyr
normalization (`stacktrace.normalize()`, an external black box) is not
modelled; no claim depends on it. -/
def db_thread_to_satyr (db : DbState) (t : ThreadRec) : SatyrThread :=
  { number := t.number,
    frames := t.frames.map (fun f =>
      let ss := (findSS db.ssources f.ssource).getD defaultSSRec
      { address := ss.offset
        library_name := ss.path
        number := f.order
        function_name :=
          match ss.symbol.bind (findSymbol db.symbols) with
          | some s => s.name
          | none => "??"
        source_file := ss.source_path
        source_line := ss.line_number }) }

/-- `CoredumpProblem._db_thread_validate` (lines 204-214): a thread is
bad exactly when it consists of one frame whose location has a symbol
named `"anonymous function"` with normalized path `"unknown filename"`. -/
def db_thread_validate (db : DbState) (t : ThreadRec) : Bool :=
  match t.frames with
  | [f] =>
      match (findSS db.ssources f.ssource).getD defaultSSRec |>.symbol.bind
          (findSymbol db.symbols) with
      | some s => !(s.name == "anonymous function" && s.normalized_path == "unknown filename")
      | none => true
  | _ => true

/-- The crash-thread loop of `db_report_to_satyr` (lines 227-238): skip
non-crash threads; at the first crash thread either convert it or give
up. -/
def findCrashLoop (db : DbState) : List ThreadRec → Option SatyrThread
  | [] => none
  | t :: ts =>
      if !t.crashthread then findCrashLoop db ts
      else if db_thread_validate db t then some (db_thread_to_satyr db t)
      else none

/-- `CoredumpProblem.db_report_to_satyr` (lines 216-238): `none` for a
report without backtraces, without threads on its first backtrace,
without a crash thread, or whose crash thread fails
`_db_thread_validate`. -/
def db_report_to_satyr (db : DbState) (rep : ReportRec) : Option SatyrThread :=
  match rep.backtraces with
  | [] => none
  | bt :: _ =>
      if bt.threads.isEmpty then none
      else findCrashLoop db bt.threads

/-! ## Concrete fixtures

Small concrete values used by witnesses and counterexamples. -/

/-- A well-formed frame (the spec section 8 example frame). -/
def exFrame : RawFrame :=
  { address := some 1, build_id_offset := some 10, file_name := some "/lib/libc.so",
    build_id := none, fingerprint := none, function_name := some "malloc" }

/-- A well-formed crash thread around `exFrame`. -/
def exThread : RawThread := { crash_thread := some true, frames := [exFrame] }

/-- A well-formed raw uReport that passes validation unchanged. -/
def exReport : Ureport :=
  { signal := some 11, component := some "abc", executable := some "/bin/x",
    user_root := some true, user_local := some false, stacktrace := some [exThread] }

/-- `exReport` with a second, non-crash thread. -/
def exReport2 : Ureport :=
  { exReport with
    stacktrace := some [exThread, { crash_thread := none, frames := [exFrame] }] }

/-- `exReport` with a two-frame crash thread whose second frame is named
`"g"`. -/
def exReportG : Ureport :=
  { exReport with
    stacktrace := some [{ crash_thread := some true,
                          frames := [exFrame, { exFrame with function_name := some "g" }] }] }

/-- `exReport` with a two-frame crash thread whose second frame is named
`"h"`. -/
def exReportH : Ureport :=
  { exReport with
    stacktrace := some [{ crash_thread := some true,
                          frames := [exFrame, { exFrame with function_name := some "h" }] }] }

/-- A frame of a JIT caller: both a file name and a jit-ish function. -/
def jitFrame : RawFrame :=
  { address := some 1, build_id_offset := some 10, file_name := some "/jit/src.js",
    build_id := none, fingerprint := none, function_name := some "MyJIT" }

/-- A frame lacking a file name and carrying the literal function name
`"unknown function"`. -/
def unknownFnFrame : RawFrame :=
  { address := some 2, build_id_offset := some 20, file_name := none,
    build_id := none, fingerprint := none, function_name := some "unknown function" }

/-- A frame lacking both names. -/
def bareFrame : RawFrame :=
  { address := some 3, build_id_offset := some 30, file_name := none,
    build_id := none, fingerprint := none, function_name := none }

/-- The canonical one-location, one-frame retrace world: location 0 at
`(build_id "ab", "/usr/bin/x", offset 0)`, unresolved, referenced by the
single frame (order 10) of thread 0; empty caches. -/
def exWorld : RetraceState :=
  { db := { symbols := [], nextSymId := 0, nextSSId := 1, nextFrameId := 1,
            ssources := [(0, { build_id := some "ab", path := "/usr/bin/x", offset := 0,
                               symbol := none, source_path := none, line_number := none,
                               hash := none, retrace_fail_count := 0 })] },
    threads := [(0, [{ fid := 0, order := 10, ssource := 0, inlined := false }])],
    symCache := [], ssCache := [] }

/-- A two-tuple resolver response, outermost first (spec contract). -/
def exTuples2 : List Tup :=
  [{ funcname := "outer", srcfile := "o.c", srcline := 1 },
   { funcname := "inner", srcfile := "i.c", srcline := 2 }]

/-- A three-tuple resolver response, outermost first (spec contract). -/
def exTuples3 : List Tup :=
  [{ funcname := "a", srcfile := "a.c", srcline := 1 },
   { funcname := "b", srcfile := "b.c", srcline := 2 },
   { funcname := "c", srcfile := "c.c", srcline := 3 }]

/-- Running the retracer's resolver consumption on `exWorld` with
`exTuples2`. -/
def exRun2 : RetraceState :=
  processResults exWorld (some "ab") "/usr/bin/x" "/usr/bin/x" 0 exTuples2

/-- First resolver consumption of `exTuples3` on `exWorld`. -/
def exRun3 : RetraceState :=
  processResults exWorld (some "ab") "/usr/bin/x" "/usr/bin/x" 0 exTuples3

/-- Re-running the same resolver consumption on the already-expanded
state (same location, same frames, same response). -/
def exRun3Again : RetraceState :=
  processResults exRun3 (some "ab") "/usr/bin/x" "/usr/bin/x" 0 exTuples3

/-- Resolvers that always fail (their answers are irrelevant to a
package that has no unpacked path). -/
def failResolvers : Resolvers :=
  { base_address := fun _ => .error "base_address failed",
    addr2line := fun _ _ _ => .error "addr2line failed" }

/-- A binary package without an unpacked artifact. -/
def exMissingPkg : PackageRec := { nvra := "bash-5.0-1", unpacked_path := none }

/-- A stored report with one (already saved) backtrace and one
executable row, for the frame-effect claim about `save_ureport`. -/
def exStoredReport : ReportRec :=
  { errname := some "6",
    backtraces := [{ hashes := ["h"],
                     threads := [{ number := 1, crashthread := true,
                                   frames := [{ fid := 0, order := 10, ssource := 0,
                                                inlined := false }] }] }],
    executables := [{ path := "/bin/x", count := 3 }] }

/-- A store holding one symbol named `"anonymous function"` at
normalized path `"unknown filename"` owning location 0. -/
def exJitOnlyDb : DbState :=
  { symbols := [(5, { name := "anonymous function",
                      normalized_path := "unknown filename", nice_name := none })],
    ssources := [(0, { build_id := none, path := "unknown filename", offset := 0,
                       symbol := some 5, source_path := none, line_number := none,
                       hash := none, retrace_fail_count := 0 })],
    nextSymId := 6, nextSSId := 1, nextFrameId := 1 }

/-- A stored report whose only (crash) thread is the single synthesized
JIT frame referencing location 0 of `exJitOnlyDb`. -/
def exJitOnlyReport : ReportRec :=
  { errname := none,
    backtraces := [{ hashes := ["h"],
                     threads := [{ number := 1, crashthread := true,
                                   frames := [{ fid := 0, order := 10, ssource := 0,
                                                inlined := false }] }] }],
    executables := [] }

/-- The prefix consumption of the `while len(results) > 1` loop: expand
each tuple of `rs` as an inlined call, `inl_id` counting up from
`inl_id + 1`.  `processResultsGo` on `rs ++ [t]` runs this on `rs` and
then `finalWrite` on `t`. -/
def expandList (st : RetraceState) (ss_bid : Option String) (ss_path norm_path : String)
    (ss_id : Nat) (inl_id : Nat) : List Tup → RetraceState
  | [] => st
  | t :: ts =>
      expandList (insertInlined st ss_bid ss_path norm_path ss_id (inl_id + 1) t)
        ss_bid ss_path norm_path ss_id (inl_id + 1) ts

/-- The remembered JIT source right before frame `i` of an unrepaired
frame list: the `jit_fname` value the scan holds when it reaches index
`i`. -/
def jitBefore (fs : List RawFrame) (i : Nat) : Option String :=
  (fs.take i).foldl stepState none

/-! ## Theorems

Lemmas about the JIT repair pass, then the claim theorems. -/

theorem anon_ne_placeholder : (("anonymous function" : String) == "??") = false := by
  decide

theorem stepFrame_of_file_isSome (j : Option String) (f : RawFrame)
    (h : f.file_name.isSome) : stepFrame j f = f := by
  rcases hf : f.file_name with _ | v
  · rw [hf] at h; cases h
  · simp [stepFrame, hf]

theorem stepState_of_file_none (j : Option String) (f : RawFrame)
    (h : f.file_name = none) : stepState j f = j := by
  cases hg : f.function_name <;> simp [stepState, h, hg]

theorem stepFrame_fill (j : Option String) (f : RawFrame) (v : String)
    (hf : f.file_name = none) (hj : j = some v) :
    stepFrame j f =
      { f with file_name := some v,
               function_name :=
                 if fnMissingOrPlaceholder f then some "anonymous function"
                 else f.function_name } := by
  subst hj
  simp [stepFrame, stepState_of_file_none _ _ hf, hf]

theorem stepFrame_none_none (f : RawFrame) (hf : f.file_name = none) :
    stepFrame none f = f := by
  simp [stepFrame, stepState_of_file_none _ _ hf, hf]

theorem stepState_file_eq (w : String) (f : RawFrame) (h : f.file_name = some w) :
    stepState (some w) f = some w := by
  cases hg : f.function_name <;> simp [stepState, h, hg]

theorem stepFrame_idem (j : Option String) (f : RawFrame) :
    stepFrame j (stepFrame j f) = stepFrame j f := by
  rcases hf : f.file_name with _ | v
  · cases j with
    | none => rw [stepFrame_none_none f hf, stepFrame_none_none f hf]
    | some w =>
        rw [stepFrame_fill _ f w hf rfl]
        exact stepFrame_of_file_isSome _ _ (by simp)
  · have h := stepFrame_of_file_isSome j f (by simp [hf])
    rw [h, h]

theorem stepState_stepFrame (j : Option String) (f : RawFrame) :
    stepState j (stepFrame j f) = stepState j f := by
  rcases hf : f.file_name with _ | v
  · cases j with
    | none => rw [stepFrame_none_none f hf]
    | some w =>
        rw [stepFrame_fill _ f w hf rfl, stepState_of_file_none _ _ hf]
        exact stepState_file_eq w _ (by simp)
  · rw [stepFrame_of_file_isSome j f (by simp [hf])]

theorem scanGo_idem (j : Option String) (l : List RawFrame) :
    scanGo j (scanGo j l) = scanGo j l := by
  induction l generalizing j with
  | nil => rfl
  | cons f fs ih =>
      simp only [scanGo]
      rw [stepFrame_idem, stepState_stepFrame, ih]

theorem fixFrame_file_isSome (f : RawFrame) : (fixFrame f).file_name.isSome := by
  rcases hf : f.file_name with _ | v <;> simp [fixFrame, hf] <;> split <;> simp [hf]

theorem fnMOP_file_update (f : RawFrame) (x : Option String) :
    fnMissingOrPlaceholder { f with file_name := x } = fnMissingOrPlaceholder f := rfl

theorem fnMissingOrPlaceholder_fixFrame (f : RawFrame) :
    fnMissingOrPlaceholder (fixFrame f) = false := by
  rcases hf : f.file_name with _ | v <;>
    rcases hfn : f.function_name with _ | s <;>
      simp [fixFrame, fnMissingOrPlaceholder, hf, hfn]
  · by_cases hq : s = "??" <;> simp [hq]
  · by_cases hq : s = "??" <;> simp [hq, fnMissingOrPlaceholder, hfn]

theorem fixFrame_of_good (g : RawFrame) (h1 : g.file_name.isSome)
    (h2 : fnMissingOrPlaceholder g = false) : fixFrame g = g := by
  rcases hg : g.file_name with _ | v
  · rw [hg] at h1; cases h1
  · simp [fixFrame, hg, h2]

theorem fixFrame_idem (f : RawFrame) : fixFrame (fixFrame f) = fixFrame f :=
  fixFrame_of_good _ (fixFrame_file_isSome f) (fnMissingOrPlaceholder_fixFrame f)

theorem fixLast_ne_nil (g : RawFrame) (gs : List RawFrame) :
    fixLast (g :: gs) ≠ [] := by
  cases gs <;> simp [fixLast]

theorem fixLast_fixLast (l : List RawFrame) : fixLast (fixLast l) = fixLast l := by
  induction l with
  | nil => rfl
  | cons f fs ih =>
      cases fs with
      | nil => simp [fixLast, fixFrame_idem]
      | cons g gs =>
          rcases hsh : fixLast (g :: gs) with _ | ⟨x, xs⟩
          · exact absurd hsh (fixLast_ne_nil g gs)
          · show fixLast (f :: fixLast (g :: gs)) = f :: fixLast (g :: gs)
            rw [hsh]
            show f :: fixLast (x :: xs) = f :: (x :: xs)
            rw [← hsh, ih, hsh]

theorem scanGo_fixLast_scanGo (j : Option String) (l : List RawFrame) :
    scanGo j (fixLast (scanGo j l)) = fixLast (scanGo j l) := by
  induction l generalizing j with
  | nil => rfl
  | cons f fs ih =>
      cases fs with
      | nil =>
          show scanGo j [fixFrame (stepFrame j f)] = [fixFrame (stepFrame j f)]
          simp only [scanGo]
          rw [stepFrame_of_file_isSome _ _ (fixFrame_file_isSome _)]
      | cons g gs =>
          show scanGo j (stepFrame j f :: fixLast (scanGo (stepState j f) (g :: gs)))
              = stepFrame j f :: fixLast (scanGo (stepState j f) (g :: gs))
          rw [show scanGo j (stepFrame j f :: fixLast (scanGo (stepState j f) (g :: gs)))
                = stepFrame j (stepFrame j f) ::
                    scanGo (stepState j (stepFrame j f))
                      (fixLast (scanGo (stepState j f) (g :: gs))) from rfl]
          rw [stepFrame_idem, stepState_stepFrame, ih]

theorem repairFrames_idem (l : List RawFrame) :
    repairFrames (repairFrames l) = repairFrames l := by
  unfold repairFrames
  rw [scanGo_fixLast_scanGo, fixLast_fixLast]

theorem repairThread_idem (t : RawThread) :
    repairThread (repairThread t) = repairThread t := by
  simp [repairThread, repairFrames_idem]

/-- C7: the JIT repair pass of `validate_ureport` is idempotent — running
the repair a second time on an already-repaired report changes no frame's
file name or function name. -/
theorem c7_jit_repair_idempotent (u : Ureport) :
    repairUreport (repairUreport u) = repairUreport u := by
  cases hs : u.stacktrace with
  | none => simp [repairUreport, hs]
  | some st =>
      simp [repairUreport, hs, List.map_map, Function.comp_def, repairThread_idem]

theorem scanGo_assigns (l : List RawFrame) (j : Option String) (i : Nat)
    (f0 : RawFrame) (v : String)
    (hget : l.get? i = some f0) (hfile : f0.file_name = none)
    (hjit : (l.take i).foldl stepState j = some v) :
    (scanGo j l).get? i =
      some { f0 with
             file_name := some v
             function_name :=
               if fnMissingOrPlaceholder f0 then some "anonymous function"
               else f0.function_name } := by
  induction l generalizing j i with
  | nil => simp at hget
  | cons f fs ih =>
      cases i with
      | zero =>
          simp only [List.get?_cons_zero, Option.some.injEq] at hget
          subst hget
          simp only [List.take_zero, List.foldl_nil] at hjit
          simp only [scanGo, List.get?_cons_zero]
          rw [stepFrame_fill j f v hfile hjit]
      | succ n =>
          simp only [List.take_succ_cons, List.foldl_cons] at hjit
          simp only [List.get?_cons_succ] at hget
          simp only [scanGo, List.get?_cons_succ]
          exact ih (stepState j f) n hget hjit

theorem getLast?_fixLast (l : List RawFrame) :
    (fixLast l).getLast? = (l.getLast?).map fixFrame := by
  induction l with
  | nil => rfl
  | cons f fs ih =>
      cases fs with
      | nil => simp [fixLast]
      | cons g gs =>
          rcases hsh : fixLast (g :: gs) with _ | ⟨x, xs⟩
          · exact absurd hsh (fixLast_ne_nil g gs)
          · show (f :: fixLast (g :: gs)).getLast? = ((f :: g :: gs).getLast?).map fixFrame
            rw [hsh, List.getLast?_cons_cons, ← hsh, ih, List.getLast?_cons_cons]

theorem fixFrame_file_of_none (f : RawFrame) (h : f.file_name = none) :
    (fixFrame f).file_name = some "unknown filename" := by
  simp only [fixFrame, h]
  split <;> simp

theorem fixFrame_function_of_placeholder (f : RawFrame)
    (h : fnMissingOrPlaceholder f = true) :
    (fixFrame f).function_name = some "anonymous function" := by
  rcases hf : f.file_name with _ | v <;> simp only [fixFrame, hf] <;>
    rw [fnMOP_file_update] at * <;> simp [h]

/-- C6 (amended): in the repair pass, for every thread scanned in order:
a frame lacking a file name, with a remembered JIT source (the file name
of the most recent earlier frame whose function name contains "jit"
case-insensitively and which carries a file name), is assigned that file
name, and is assigned the function name `"anonymous function"` exactly
when its own function name is absent or is the placeholder `"??"` (NOT
the literal `"unknown function"` the claim names); after the scan the
last frame, if still lacking a file name, is assigned
`"unknown filename"`, and if its function name is still absent or `"??"`
it is assigned `"anonymous function"`. -/
theorem c6_amended_jit_repair_assignments (fs : List RawFrame) :
    (∀ (i : Nat) (f0 : RawFrame) (v : String),
        fs.get? i = some f0 → f0.file_name = none → jitBefore fs i = some v →
        (scanGo none fs).get? i =
          some { f0 with
                 file_name := some v
                 function_name :=
                   if fnMissingOrPlaceholder f0 then some "anonymous function"
                   else f0.function_name }) ∧
    (∀ L : RawFrame, (scanGo none fs).getLast? = some L →
        (repairFrames fs).getLast? = some (fixFrame L) ∧
        (L.file_name = none → (fixFrame L).file_name = some "unknown filename") ∧
        (fnMissingOrPlaceholder L = true →
          (fixFrame L).function_name = some "anonymous function")) := by
  constructor
  · intro i f0 v hget hfile hjit
    exact scanGo_assigns fs none i f0 v hget hfile hjit
  · intro L hL
    refine ⟨?_, fixFrame_file_of_none L, fixFrame_function_of_placeholder L⟩
    rw [repairFrames, getLast?_fixLast, hL]
    rfl

/-- C6 counterexample: a mid-thread frame that lacks a file name and
carries the literal function name `"unknown function"` gets the
remembered JIT source as file name, but its function name is KEPT — the
claim says it must become `"anonymous function"`; the source only
replaces the placeholder `"??"`. -/
theorem c6_counterexample :
    ((repairFrames [jitFrame, unknownFnFrame, exFrame]).get? 1).map
        (fun g => (g.file_name, g.function_name)) =
      some (some "/jit/src.js", some "unknown function") ∧
    (some "unknown function" : Option String) ≠ some "anonymous function" := by
  decide

/-- Witness for the amended C6 theorem: the scan conjunct applied to the
thread `[jitFrame, bareFrame, exFrame]` at index 1, and the last-frame
conjunct applied to the single-frame thread `[bareFrame]`. -/
theorem c6_amended_witness :
    (scanGo none [jitFrame, bareFrame, exFrame]).get? 1 =
      some { bareFrame with
             file_name := some "/jit/src.js"
             function_name := some "anonymous function" } ∧
    ((repairFrames [bareFrame]).getLast? = some (fixFrame bareFrame) ∧
      (bareFrame.file_name = none →
        (fixFrame bareFrame).file_name = some "unknown filename") ∧
      (fnMissingOrPlaceholder bareFrame = true →
        (fixFrame bareFrame).function_name = some "anonymous function")) := by
  constructor
  · have h := (c6_amended_jit_repair_assignments
      [jitFrame, bareFrame, exFrame]).1 1 bareFrame "/jit/src.js"
      (by decide) (by decide) (by decide)
    rw [h]
    decide
  · exact (c6_amended_jit_repair_assignments [bareFrame]).2 bareFrame (by decide)

theorem checkFrame_build_id_offset_isSome (f : RawFrame) (h : checkFrame f = true) :
    f.build_id_offset.isSome := by
  rcases hbo : f.build_id_offset with _ | o
  · simp [checkFrame, hbo] at h
  · simp [hbo]

theorem checkFrame_file_name_isSome (f : RawFrame) (h : checkFrame f = true) :
    f.file_name.isSome := by
  rcases hfn : f.file_name with _ | p
  · simp [checkFrame, hfn] at h
  · simp [hfn]

theorem checkThread_frames (t : RawThread) (h : checkThread t = true) :
    ∀ f ∈ t.frames, checkFrame f = true := by
  simp only [checkThread, Bool.and_eq_true, List.all_eq_true] at h
  exact h.2

theorem keyUsable_build_id_offset_of_check (st : List RawThread)
    (h : ∀ t ∈ st, checkThread t = true) :
    keyUsable .build_id_offset st = true := by
  simp only [keyUsable, List.all_eq_true]
  intro t ht f hf
  have hbo := checkFrame_build_id_offset_isSome f (checkThread_frames t (h t ht) f hf)
  rcases hx : f.build_id_offset with _ | o
  · rw [hx] at hbo; cases hbo
  · simp [frameHasKey, keyVal, hx]

theorem hash_backtrace_ne_nil_of_usable (st : List RawThread)
    (h : keyUsable .build_id_offset st = true) : hash_backtrace st ≠ [] := by
  intro hc
  have hmem : HashKey.build_id_offset ∈
      ([HashKey.function_name, HashKey.fingerprint, HashKey.build_id_offset].filter
        (fun k => keyUsable k st)) := List.mem_filter.mpr ⟨by simp, h⟩
  rw [hash_backtrace, List.map_eq_nil_iff] at hc
  rw [hc] at hmem
  exact absurd hmem (List.not_mem_nil _)

theorem except_bind_ok (a : α) (k : α → Except String β) :
    (Except.ok a >>= k) = k a := rfl

theorem foldlM_saveFrameStep_ok (fs : List RawFrame) (acc : SaveAcc)
    (h : ∀ f ∈ fs, f.file_name.isSome ∧ f.build_id_offset.isSome) :
    ∃ acc', fs.foldlM saveFrameStep acc = .ok acc' := by
  induction fs generalizing acc with
  | nil => exact ⟨acc, rfl⟩
  | cons f fs ih =>
      obtain ⟨h1, h2⟩ := h f (List.mem_cons_self f fs)
      rcases hfn : f.file_name with _ | p
      · rw [hfn] at h1; cases h1
      rcases hbo : f.build_id_offset with _ | o
      · rw [hbo] at h2; cases h2
      have hstep : ∃ a, saveFrameStep acc f = .ok a := by
        simp only [saveFrameStep, hfn, hbo, except_bind_ok]
        exact ⟨_, rfl⟩
      obtain ⟨acc1, hs⟩ := hstep
      obtain ⟨acc', ha⟩ := ih acc1 (fun g hg => h g (List.mem_cons_of_mem f hg))
      exact ⟨acc', by rw [List.foldlM_cons, hs, except_bind_ok]; exact ha⟩

theorem saveThreadsGo_ok (ts : List RawThread) (db : DbState) (sc : SymCache)
    (ssc : SSCache) (tid : Nat)
    (h : ∀ t ∈ ts, ∀ f ∈ t.frames, f.file_name.isSome ∧ f.build_id_offset.isSome) :
    ∃ out, saveThreadsGo db sc ssc tid ts = .ok out := by
  induction ts generalizing db sc ssc tid with
  | nil => exact ⟨_, rfl⟩
  | cons t ts ih =>
      obtain ⟨acc, hacc⟩ := foldlM_saveFrameStep_ok t.frames
        { db := db, symCache := sc, ssCache := ssc, fid := 0, frames := [] }
        (fun f hf => h t (List.mem_cons_self t ts) f hf)
      obtain ⟨out, hout⟩ := ih acc.db acc.symCache acc.ssCache (tid + 1)
        (fun t' ht' => h t' (List.mem_cons_of_mem t ht'))
      refine ⟨(out.1, out.2.1, out.2.2.1,
        { number := tid, crashthread := isCrashThread t, frames := acc.frames }
          :: out.2.2.2), ?_⟩
      show (t.frames.foldlM saveFrameStep
          { db := db, symCache := sc, ssCache := ssc, fid := 0, frames := [] } >>= _) = _
      rw [hacc, except_bind_ok]
      show (saveThreadsGo acc.db acc.symCache acc.ssCache (tid + 1) ts >>= _) = _
      rw [hout, except_bind_ok]
      rfl

theorem validate_ureport_ok_iff (u u' : Ureport) (h : validate_ureport u = .ok u') :
    u' = repairUreport u ∧ checkUreport u' = true := by
  unfold validate_ureport at h
  by_cases hc : checkUreport (repairUreport u) = true
  · rw [if_pos hc] at h
    rcases hv : (repairUreport u).stacktrace with _ | s
    · simp only [hv] at h
      cases h
    · simp only [hv] at h
      cases hg : get_crash_thread s with
      | error e =>
          simp only [hg, Except.map] at h
          cases h
      | ok fr =>
          simp only [hg, Except.map] at h
          injection h with h2
          subst h2
          exact ⟨rfl, hc⟩
  · rw [if_neg (by simpa using hc)] at h
    cases h

/-- C1: a report that passes `validate_ureport` always gets at least one
backtrace hash — in particular the `build_id_offset` strategy is usable
because the schema makes `build_id_offset` mandatory in every frame — so
the "Unable to get backtrace hash" `FafError` of `save_ureport` is
unreachable for validated input: `save_ureport` succeeds on it. -/
theorem c1_validated_reports_hashable (u u' : Ureport) (st : List RawThread)
    (h : validate_ureport u = .ok u') (hst : u'.stacktrace = some st) :
    keyUsable .build_id_offset st = true ∧
    hash_backtrace st ≠ [] ∧
    ∀ (db : DbState) (rep : ReportRec) (cnt : Nat),
      ∃ out, save_ureport db rep u' cnt = .ok out := by
  obtain ⟨-, hchk⟩ := validate_ureport_ok_iff u u' h
  have hthreads : ∀ t ∈ st, checkThread t = true := by
    simp only [checkUreport, hst, Bool.and_eq_true, List.all_eq_true] at hchk
    exact hchk.2.2
  have husable := keyUsable_build_id_offset_of_check st hthreads
  have hne := hash_backtrace_ne_nil_of_usable st husable
  refine ⟨husable, hne, ?_⟩
  intro db rep cnt
  rcases hsg : u'.signal with _ | sg
  · simp [checkUreport, hsg] at hchk
  rcases hex : u'.executable with _ | ex
  · simp [checkUreport, hex] at hchk
  have hframes : ∀ t ∈ st, ∀ f ∈ t.frames,
      f.file_name.isSome ∧ f.build_id_offset.isSome := by
    intro t ht f hf
    have hcf := checkThread_frames t (hthreads t ht) f hf
    exact ⟨checkFrame_file_name_isSome f hcf, checkFrame_build_id_offset_isSome f hcf⟩
  simp only [save_ureport, hsg, hex, hst, except_bind_ok]
  rw [if_neg hne]
  by_cases hb : rep.backtraces = []
  · rw [if_pos hb]
    obtain ⟨out, hout⟩ := saveThreadsGo_ok st db [] [] 1 hframes
    rw [hout, except_bind_ok]
    exact ⟨_, rfl⟩
  · rw [if_neg hb]
    exact ⟨_, rfl⟩

/-- Witness for C1 at the concrete validated report `exReport`. -/
theorem c1_witness :
    keyUsable .build_id_offset [exThread] = true ∧
    hash_backtrace [exThread] ≠ [] ∧
    ∀ (db : DbState) (rep : ReportRec) (cnt : Nat),
      ∃ out, save_ureport db rep exReport cnt = .ok out :=
  c1_validated_reports_hashable exReport exReport [exThread] (by rfl) (by rfl)

/-- C5 (amended): the short hash of `hash_ureport` depends only on the
component AND the single crash thread (not on other threads); the single
key is selected by the preference order `function_name` > `fingerprint` >
`build_id_offset` over all crash-thread frames — `function_name` whenever
every crash-thread frame carries it, regardless of `fingerprint` — and
the digest incorporates the values of at most the configured number of
frames (`hashframes`, default 16) counted from the top of the stack:
reports agreeing on component, selected key, and the first `hashframes`
crash-thread frames hash identically. -/
theorem c5_amended_short_hash :
    (∀ (hf : Nat) (u1 u2 : Ureport),
        u1.component = u2.component →
        get_crash_thread (u1.stacktrace.getD []) = get_crash_thread (u2.stacktrace.getD []) →
        hash_ureport hf u1 = hash_ureport hf u2) ∧
    (∀ crash : List RawFrame,
        (∀ f ∈ crash, frameHasKey .function_name f = true) →
        selectKey crash = .function_name) ∧
    (∀ (hf : Nat) (u1 u2 : Ureport) (c1 c2 : List RawFrame),
        get_crash_thread (u1.stacktrace.getD []) = .ok c1 →
        get_crash_thread (u2.stacktrace.getD []) = .ok c2 →
        u1.component = u2.component →
        selectKey c1 = selectKey c2 →
        c1.take hf = c2.take hf →
        hash_ureport hf u1 = hash_ureport hf u2) ∧
    defaultHashframes = 16 := by
  refine ⟨?_, ?_, ?_, rfl⟩
  · intro hf u1 u2 h1 h2
    simp only [hash_ureport, h1, h2]
  · intro crash hall
    have h := List.all_eq_true.mpr hall
    simp [selectKey, h]
  · intro hf u1 u2 c1 c2 hc1 hc2 hcomp hkey htake
    simp only [hash_ureport, hc1, hc2, except_bind_ok, hcomp, hkey, htake]

/-- C5 counterexample: two reports with identical stacktraces but
different components get different short hashes, so the short hash is
NOT computed only from the single crash thread — `hash_ureport` seeds
the hash base with `ureport["component"]` (line 295). -/
theorem c5_counterexample :
    ({ exReport with component := some "aaa" } : Ureport).stacktrace =
      ({ exReport with component := some "bbb" } : Ureport).stacktrace ∧
    hash_ureport defaultHashframes { exReport with component := some "aaa" } ≠
      hash_ureport defaultHashframes { exReport with component := some "bbb" } := by
  refine ⟨rfl, ?_⟩
  intro hEq
  rw [show hash_ureport defaultHashframes { exReport with component := some "aaa" } =
        Except.ok "aaa\nmalloc @ /lib/libc.so" from rfl,
      show hash_ureport defaultHashframes { exReport with component := some "bbb" } =
        Except.ok "bbb\nmalloc @ /lib/libc.so" from rfl] at hEq
  injection hEq with h2
  exact absurd h2 (by decide)

/-- Witness for the amended C5 theorem: a second non-crash thread does
not change the hash; a thread of `function_name`-carrying frames selects
the `function_name` key; with `hashframes = 1`, crash threads differing
only in their second frame hash identically. -/
theorem c5_amended_witness :
    hash_ureport 16 exReport2 = hash_ureport 16 exReport ∧
    selectKey [exFrame] = .function_name ∧
    hash_ureport 1 exReportG = hash_ureport 1 exReportH ∧
    defaultHashframes = 16 :=
  ⟨c5_amended_short_hash.1 16 exReport2 exReport rfl rfl,
   c5_amended_short_hash.2.1 [exFrame] (by decide),
   c5_amended_short_hash.2.2.1 1 exReportG exReportH
     [exFrame, { exFrame with function_name := some "g" }]
     [exFrame, { exFrame with function_name := some "h" }]
     rfl rfl rfl rfl rfl,
   c5_amended_short_hash.2.2.2⟩

/-- C2: within one batch the get-or-create paths are idempotent per
identity key — a second lookup with an identical `(build_id, path,
offset)` (resp. `(name, normalized_path)`) identity returns the id the
first lookup returned, finding the store's object or the pending-insert
cache entry, and creates nothing new: the store, cache and fresh-id
counter are unchanged.  This covers the symbol path shared by
`save_ureport` and `retrace`, the location path of `save_ureport` (even
when the second frame carries a different symbol or fingerprint), and
the synthetic inlined-location path of `retrace` (for a tuple with the
same source line, hence the same negative offset). -/
theorem c2_get_or_create_dedup :
    (∀ (db : DbState) (c : SymCache) (name norm : String),
        getOrCreateSymbol (getOrCreateSymbol db c name norm).2.1
            (getOrCreateSymbol db c name norm).2.2 name norm =
          getOrCreateSymbol db c name norm) ∧
    (∀ (db : DbState) (c : SSCache) (k : SSKey) (sym sym' : Option Nat)
        (fp fp' : Option String),
        getOrCreateSSourceSave (getOrCreateSSourceSave db c k sym fp).2.1
            (getOrCreateSSourceSave db c k sym fp).2.2 k sym' fp' =
          getOrCreateSSourceSave db c k sym fp) ∧
    (∀ (st : RetraceState) (bid : Option String) (path norm : String) (t t' : Tup),
        t.srcline = t'.srcline →
        getOrCreateInlSSource (getOrCreateInlSSource st bid path norm t).2
            bid path norm t' =
          getOrCreateInlSSource st bid path norm t) := by
  refine ⟨?_, ?_, ?_⟩
  · intro db c name norm
    unfold getOrCreateSymbol
    cases hs : get_symbol_by_name_path db name norm with
    | some i => simp [hs]
    | none =>
        cases hc : List.lookup (name, norm) c with
        | some i => simp [hs, hc]
        | none =>
            simp only [hs, hc]
            simp [get_symbol_by_name_path, List.find?]
  · intro db c k sym sym' fp fp'
    unfold getOrCreateSSourceSave
    cases hs : get_ssource_by_bpo db k with
    | some i => simp [hs]
    | none =>
        cases hc : List.lookup k c with
        | some i => simp [hs, hc]
        | none =>
            simp only [hs, hc]
            simp [get_ssource_by_bpo, List.find?]
  · intro st bid path norm t t' hline
    unfold getOrCreateInlSSource
    rw [← hline]
    cases hs : get_ssource_by_bpo st.db (bid, path, -t.srcline) with
    | some i => simp [hs]
    | none =>
        cases hc : List.lookup (bid, path, -t.srcline) st.ssCache with
        | some i => simp [hs, hc]
        | none =>
            simp only [hs, hc]
            simp [get_ssource_by_bpo, List.find?]

/-- Witness for C2's inlined-location conjunct: re-looking-up the
synthetic location key `(some "ab", "/usr/bin/x", -7)` on `exWorld`
with a second tuple of the same source line changes nothing. -/
theorem c2_witness :
    getOrCreateInlSSource
        (getOrCreateInlSSource exWorld (some "ab") "/usr/bin/x" "/usr/bin/x"
          { funcname := "a", srcfile := "a.c", srcline := 7 }).2
        (some "ab") "/usr/bin/x" "/usr/bin/x"
        { funcname := "b", srcfile := "b.c", srcline := 7 } =
      getOrCreateInlSSource exWorld (some "ab") "/usr/bin/x" "/usr/bin/x"
        { funcname := "a", srcfile := "a.c", srcline := 7 } :=
  c2_get_or_create_dedup.2.2 exWorld (some "ab") "/usr/bin/x" "/usr/bin/x"
    { funcname := "a", srcfile := "a.c", srcline := 7 }
    { funcname := "b", srcfile := "b.c", srcline := 7 } rfl

theorem get_reportexe_bumpExe_self (l : List ExeRec) (p : String) (c : Nat)
    (e : ExeRec) (h : get_reportexe l p = some e) :
    get_reportexe (bumpExe p c l) p = some { e with count := e.count + c } := by
  induction l with
  | nil => simp [get_reportexe] at h
  | cons e0 es ih =>
      by_cases h0 : e0.path = p
      · subst h0
        simp only [get_reportexe, List.find?, beq_self_eq_true] at h
        injection h with h
        subst h
        simp [bumpExe, get_reportexe, List.find?]
      · have hb : (e0.path == p) = false := beq_eq_false_iff_ne.mpr h0
        simp only [get_reportexe, List.find?, hb] at h
        simp only [bumpExe, hb, Bool.false_eq_true, if_false]
        simp only [get_reportexe, List.find?, hb]
        exact ih h

theorem get_reportexe_bumpExe_other (l : List ExeRec) (p q : String) (c : Nat)
    (h : q ≠ p) : get_reportexe (bumpExe p c l) q = get_reportexe l q := by
  have hpq : (p == q) = false := beq_eq_false_iff_ne.mpr (Ne.symm h)
  induction l with
  | nil => simp [bumpExe, get_reportexe, List.find?, hpq]
  | cons e0 es ih =>
      by_cases h0 : e0.path = p
      · have hq : (e0.path == q) = false := by rw [h0]; exact hpq
        have hself : (e0.path == p) = true := by rw [h0]; exact beq_self_eq_true p
        simp only [bumpExe, hself, if_true]
        simp [get_reportexe, List.find?, hq]
      · have hb : (e0.path == p) = false := beq_eq_false_iff_ne.mpr h0
        simp only [bumpExe, hb, Bool.false_eq_true, if_false]
        simp only [get_reportexe, List.find?]
        cases hq : (e0.path == q) with
        | true => rfl
        | false => exact ih

/-- C10: on a report that already has a backtrace, a successful
`save_ureport` only sets the report's error name from the signal and
bumps the matching executable's count by `count`; the store (symbols and
locations) and the stored backtraces (hence threads and frames) are
returned unchanged — backtrace structure is built only when the report
has none.  The trailing conjuncts pin down the executable bump: the
matching row's count grows by exactly `count` and rows with other paths
are untouched. -/
theorem c10_save_ureport_frame_effect (db : DbState) (rep : ReportRec) (u : Ureport)
    (cnt : Nat) (sg : Int) (ex : String) (st : List RawThread)
    (hsg : u.signal = some sg) (hex : u.executable = some ex)
    (hst : u.stacktrace = some st) (hhash : hash_backtrace st ≠ [])
    (hbt : ¬ rep.backtraces = []) :
    save_ureport db rep u cnt =
      .ok (db, { rep with errname := some (toString sg),
                          executables := bumpExe ex cnt rep.executables }) ∧
    (∀ e, get_reportexe rep.executables ex = some e →
        get_reportexe (bumpExe ex cnt rep.executables) ex =
          some { e with count := e.count + cnt }) ∧
    (∀ q, q ≠ ex →
        get_reportexe (bumpExe ex cnt rep.executables) q =
          get_reportexe rep.executables q) := by
  refine ⟨?_, fun e he => get_reportexe_bumpExe_self _ ex cnt e he,
          fun q hq => get_reportexe_bumpExe_other _ ex q cnt hq⟩
  simp only [save_ureport, hsg, hex, hst, except_bind_ok]
  rw [if_neg hhash, if_neg hbt]
  rfl

/-- Witness for C10: saving `exReport` again onto the stored report
`exStoredReport` (count 2) only rewrites `errname` and bumps the
`/bin/x` executable row. -/
theorem c10_witness :
    save_ureport exJitOnlyDb exStoredReport exReport 2 =
      .ok (exJitOnlyDb,
        { exStoredReport with
          errname := some (toString (11 : Int)),
          executables := bumpExe "/bin/x" 2 exStoredReport.executables }) ∧
    (∀ e, get_reportexe exStoredReport.executables "/bin/x" = some e →
        get_reportexe (bumpExe "/bin/x" 2 exStoredReport.executables) "/bin/x" =
          some { e with count := e.count + 2 }) ∧
    (∀ q, q ≠ "/bin/x" →
        get_reportexe (bumpExe "/bin/x" 2 exStoredReport.executables) q =
          get_reportexe exStoredReport.executables q) :=
  c10_save_ureport_frame_effect exJitOnlyDb exStoredReport exReport 2 11 "/bin/x"
    [exThread] rfl rfl rfl (by decide) (by decide)

theorem findSS_cons_self (a : Nat) (r : SymbolSourceRec) (l : List (Nat × SymbolSourceRec)) :
    findSS ((a, r) :: l) a = some r := by
  simp [findSS, List.find?]

theorem findSS_cons_ne (a : Nat) (r : SymbolSourceRec) (l : List (Nat × SymbolSourceRec))
    (j : Nat) (h : (a == j) = false) : findSS ((a, r) :: l) j = findSS l j := by
  simp [findSS, List.find?, h]

theorem updateSS_cons_self (a : Nat) (g : SymbolSourceRec → SymbolSourceRec)
    (r : SymbolSourceRec) (l : List (Nat × SymbolSourceRec)) :
    updateSS a g ((a, r) :: l) = (a, g r) :: updateSS a g l := by
  simp [updateSS]

theorem updateSS_cons_ne (a i : Nat) (g : SymbolSourceRec → SymbolSourceRec)
    (r : SymbolSourceRec) (l : List (Nat × SymbolSourceRec)) (h : (a == i) = false) :
    updateSS i g ((a, r) :: l) = (a, r) :: updateSS i g l := by
  unfold updateSS
  rw [List.map_cons, if_neg (by simp [h])]

theorem findSS_updateSS (i : Nat) (g : SymbolSourceRec → SymbolSourceRec)
    (l : List (Nat × SymbolSourceRec)) (j : Nat) :
    findSS (updateSS i g l) j =
      if j = i then (findSS l j).map g else findSS l j := by
  induction l with
  | nil => simp [findSS, updateSS]
  | cons e es ih =>
      obtain ⟨a, r⟩ := e
      by_cases hai : a = i
      · subst hai
        rw [updateSS_cons_self]
        by_cases hja : j = a
        · subst hja
          rw [findSS_cons_self, findSS_cons_self, if_pos rfl]
          rfl
        · have hb : (a == j) = false := beq_eq_false_iff_ne.mpr (fun hc => hja hc.symm)
          rw [findSS_cons_ne a (g r) (updateSS a g es) j hb, findSS_cons_ne a r es j hb, ih]
      · have hb : (a == i) = false := beq_eq_false_iff_ne.mpr hai
        rw [updateSS_cons_ne a i g r es hb]
        by_cases hja : j = a
        · subst hja
          rw [findSS_cons_self, if_neg hai, findSS_cons_self]
        · have hbj : (a == j) = false := beq_eq_false_iff_ne.mpr (fun hc => hja hc.symm)
          rw [findSS_cons_ne a r (updateSS i g es) j hbj, findSS_cons_ne a r es j hbj, ih]

theorem bumpAllFail_cons (i : Nat) (is : List Nat) (st : RetraceState) :
    bumpAllFail (i :: is) st = bumpAllFail is { st with db := bumpFail i st.db } := rfl

theorem bumpAllFail_components (ssids : List Nat) (st : RetraceState) :
    (bumpAllFail ssids st).threads = st.threads ∧
    (bumpAllFail ssids st).symCache = st.symCache ∧
    (bumpAllFail ssids st).ssCache = st.ssCache ∧
    (bumpAllFail ssids st).db.symbols = st.db.symbols := by
  induction ssids generalizing st with
  | nil => exact ⟨rfl, rfl, rfl, rfl⟩
  | cons i is ih =>
      rw [bumpAllFail_cons]
      exact ih { st with db := bumpFail i st.db }

theorem findSS_bumpFail (i : Nat) (db : DbState) (j : Nat) :
    findSS (bumpFail i db).ssources j =
      if j = i then
        (findSS db.ssources j).map
          (fun r => { r with retrace_fail_count := r.retrace_fail_count + 1 })
      else findSS db.ssources j := by
  show findSS (updateSS i
      (fun r => { r with retrace_fail_count := r.retrace_fail_count + 1 })
      db.ssources) j = _
  exact findSS_updateSS i _ db.ssources j

theorem findSS_bumpAllFail_not_mem (ssids : List Nat) (st : RetraceState) (j : Nat)
    (h : j ∉ ssids) :
    findSS (bumpAllFail ssids st).db.ssources j = findSS st.db.ssources j := by
  induction ssids generalizing st with
  | nil => rfl
  | cons i is ih =>
      rw [bumpAllFail_cons]
      have hji : j ≠ i := fun hc => h (hc ▸ List.mem_cons_self i is)
      rw [ih _ (fun hc => h (List.mem_cons_of_mem i hc))]
      show findSS (bumpFail i st.db).ssources j = _
      rw [findSS_bumpFail, if_neg hji]

theorem findSS_bumpAllFail_mem (ssids : List Nat) (st : RetraceState) (j : Nat)
    (hnd : ssids.Nodup) (h : j ∈ ssids) :
    findSS (bumpAllFail ssids st).db.ssources j =
      (findSS st.db.ssources j).map
        (fun r => { r with retrace_fail_count := r.retrace_fail_count + 1 }) := by
  induction ssids generalizing st with
  | nil => cases h
  | cons i is ih =>
      rw [bumpAllFail_cons]
      rcases List.mem_cons.mp h with hji | hmem
      · subst hji
        have hnotin : j ∉ is := (List.nodup_cons.mp hnd).1
        rw [findSS_bumpAllFail_not_mem is _ j hnotin]
        show findSS (bumpFail j st.db).ssources j = _
        rw [findSS_bumpFail, if_pos rfl]
      · have hji : j ≠ i := fun hc => (List.nodup_cons.mp hnd).1 (hc ▸ hmem)
        rw [ih _ (List.nodup_cons.mp hnd).2 hmem]
        show (findSS (bumpFail i st.db).ssources j).map _ = _
        rw [findSS_bumpFail, if_neg hji]

theorem processSSource_none (R : Resolvers) (dbg : Option String) (st : RetraceState)
    (i : Nat) : processSSource R dbg none st i = { st with db := bumpFail i st.db } := rfl

theorem foldl_processSSource_none (R : Resolvers) (dbg : Option String)
    (l : List Nat) (st : RetraceState) :
    List.foldl (processSSource R dbg none) st l =
      List.foldl (fun acc i => { acc with db := bumpFail i acc.db }) st l := by
  induction l generalizing st with
  | nil => rfl
  | cons i is ih =>
      simp only [List.foldl_cons]
      rw [processSSource_none]
      exact ih _

theorem retracePackage_unpacked_none (R : Resolvers) (dbg : Option String)
    (st : RetraceState) (pkg : PackageRec × List Nat)
    (h : pkg.1.unpacked_path = none) :
    retracePackage R dbg st pkg = bumpAllFail pkg.2 st := by
  unfold retracePackage bumpAllFail
  rw [h]
  exact foldl_processSSource_none R dbg pkg.2 st

/-- C8: a binary package of a retrace task whose `unpacked_path` is
absent contributes exactly one failure-counter bump to each of its
listed locations and nothing else: the package's step of the task loop
equals `bumpAllFail`, which increments `retrace_fail_count` of each
listed location by 1 (writing no symbol, source path or line number —
the record update touches only the counter), leaves every other
location, every symbol, the stored threads/frames and the caches
untouched — and the remaining packages of the task are still processed
(the loop continues on the bumped state). -/
theorem c8_retrace_missing_unpacked (R : Resolvers) (task : RetraceTask)
    (pre post : List (PackageRec × List Nat)) (p : PackageRec × List Nat)
    (db : DbState) (threads : List (Nat × List FrameRec))
    (hsplit : task.binary_packages = pre ++ p :: post)
    (hmiss : p.1.unpacked_path = none) :
    (retrace R task db threads =
      retraceTaskGo R task.debuginfo_unpacked
        (bumpAllFail p.2
          (retraceTaskGo R task.debuginfo_unpacked
            { db := db, threads := threads, symCache := [], ssCache := [] } pre)) post) ∧
    (∀ (st : RetraceState) (j : Nat),
        p.2.Nodup → j ∈ p.2 →
        findSS (bumpAllFail p.2 st).db.ssources j =
          (findSS st.db.ssources j).map
            (fun r => { r with retrace_fail_count := r.retrace_fail_count + 1 })) ∧
    (∀ (st : RetraceState) (j : Nat), j ∉ p.2 →
        findSS (bumpAllFail p.2 st).db.ssources j = findSS st.db.ssources j) ∧
    (∀ st : RetraceState,
        (bumpAllFail p.2 st).threads = st.threads ∧
        (bumpAllFail p.2 st).symCache = st.symCache ∧
        (bumpAllFail p.2 st).ssCache = st.ssCache ∧
        (bumpAllFail p.2 st).db.symbols = st.db.symbols) := by
  refine ⟨?_, fun st j hnd hm => findSS_bumpAllFail_mem p.2 st j hnd hm,
          fun st j hm => findSS_bumpAllFail_not_mem p.2 st j hm,
          fun st => bumpAllFail_components p.2 st⟩
  unfold retrace retraceTaskGo
  rw [hsplit, List.foldl_append, List.foldl_cons,
      retracePackage_unpacked_none R task.debuginfo_unpacked _ p hmiss]

/-- Witness for C8: a one-package task around `exMissingPkg` (no
unpacked path) listing location 0 of `exWorld`. -/
theorem c8_witness :
    (retrace failResolvers
        { binary_packages := [(exMissingPkg, [0])], debuginfo_unpacked := none,
          source_unpacked := none } exWorld.db exWorld.threads =
      retraceTaskGo failResolvers none
        (bumpAllFail [0]
          (retraceTaskGo failResolvers none
            { db := exWorld.db, threads := exWorld.threads,
              symCache := [], ssCache := [] } [])) []) ∧
    (∀ (st : RetraceState) (j : Nat),
        ([0] : List Nat).Nodup → j ∈ [0] →
        findSS (bumpAllFail [0] st).db.ssources j =
          (findSS st.db.ssources j).map
            (fun r => { r with retrace_fail_count := r.retrace_fail_count + 1 })) ∧
    (∀ (st : RetraceState) (j : Nat), j ∉ [0] →
        findSS (bumpAllFail [0] st).db.ssources j = findSS st.db.ssources j) ∧
    (∀ st : RetraceState,
        (bumpAllFail [0] st).threads = st.threads ∧
        (bumpAllFail [0] st).symCache = st.symCache ∧
        (bumpAllFail [0] st).ssCache = st.ssCache ∧
        (bumpAllFail [0] st).db.symbols = st.db.symbols) :=
  c8_retrace_missing_unpacked failResolvers
    { binary_packages := [(exMissingPkg, [0])], debuginfo_unpacked := none,
      source_unpacked := none }
    [] [] (exMissingPkg, [0]) exWorld.db exWorld.threads rfl rfl

theorem processResultsGo_append (rs : List Tup) (t : Tup) (st : RetraceState)
    (bid : Option String) (path norm : String) (ss_id inl : Nat) :
    processResultsGo st bid path norm ss_id inl (rs ++ [t]) =
      finalWrite (expandList st bid path norm ss_id inl rs) ss_id norm t := by
  induction rs generalizing st inl with
  | nil => rfl
  | cons a rs ih =>
      cases rs with
      | nil => rfl
      | cons b rs' =>
          show processResultsGo (insertInlined st bid path norm ss_id (inl + 1) a)
              bid path norm ss_id (inl + 1) ((b :: rs') ++ [t]) = _
          rw [ih]
          rfl

/-- C3 (amended): under the spec's resolver contract (tuples ordered
outermost to innermost), the retracer's final popped entry is the
INNERMOST one — the last tuple of the response, not the outermost:
`results.reverse()` followed by repeated `results.pop()` consumes the
response front to back, so the loop expands the outermost `n - 1` tuples
as synthetic inlined locations (in outer-to-inner order) and the final
write into the original CanonicalLocation uses the last tuple.  The
first conjunct is the control-flow equation for every response of shape
`rs ++ [t]`; the rest instantiates it on the canonical one-frame world
with the two-tuple response `exTuples2`, showing the original location
receives the innermost tuple's function name (symbol deduplicated by
name and normalized path, `nice_name` filled by demangling), source file
and line, while the outermost tuple became the synthetic inlined
location at offset `-1`. -/
theorem c3_amended_final_pop_innermost :
    (∀ (rs : List Tup) (t : Tup) (st : RetraceState) (bid : Option String)
        (path norm : String) (ss_id inl : Nat),
        processResultsGo st bid path norm ss_id inl (rs ++ [t]) =
          finalWrite (expandList st bid path norm ss_id inl rs) ss_id norm t) ∧
    findSS exRun2.db.ssources 0 =
      some { build_id := some "ab", path := "/usr/bin/x", offset := 0,
             symbol := some 1, source_path := some "i.c", line_number := some 2,
             hash := none, retrace_fail_count := 0 } ∧
    findSymbol exRun2.db.symbols 1 =
      some { name := "inner", normalized_path := get_libname "/usr/bin/x",
             nice_name := some (demangle "inner") } ∧
    (findSS exRun2.db.ssources 1).map (fun r => (r.offset, r.source_path)) =
      some (-1, some "o.c") := by
  refine ⟨processResultsGo_append, ?_, ?_, ?_⟩ <;> decide

/-- C3 counterexample: on the canonical one-frame world with the
outer-to-inner response `[("outer","o.c",1), ("inner","i.c",2)]`, the
original location is written with the INNERMOST tuple `("inner","i.c",2)`
— not, as the claim states, the outermost one. -/
theorem c3_counterexample :
    (findSS exRun2.db.ssources 0).map
        (fun r => (r.source_path, r.line_number,
          (r.symbol.bind (findSymbol exRun2.db.symbols)).map (fun s => s.name))) =
      some (some "i.c", some 2, some "inner") ∧
    ¬ (findSS exRun2.db.ssources 0).map
        (fun r => (r.source_path, r.line_number,
          (r.symbol.bind (findSymbol exRun2.db.symbols)).map (fun s => s.name))) =
      some (some "o.c", some 1, some "outer") := by
  decide

/-- C4 (amended): on the canonical one-frame world (original frame order
10), the three-tuple response `exTuples3` inserts exactly 2 synthetic
inlined frames, at orders 9 and 10 minus 2 = 8 and referencing locations
with the distinct negative offsets -1 and -2 (minus the source lines of
the two outermost tuples); but re-running the expansion on the same
location/frame pair is NOT a no-op: the previous-frame test at lines
614-620 only recognizes the first inlined level, so the re-run inserts
exactly one further duplicate frame (for the second level, order 8,
same synthetic location). -/
theorem c4_amended_inline_expansion :
    threadFramesOf exRun3.threads 0 =
      [{ fid := 0, order := 10, ssource := 0, inlined := false },
       { fid := 1, order := 9, ssource := 1, inlined := true },
       { fid := 2, order := 8, ssource := 2, inlined := true }] ∧
    (findSS exRun3.db.ssources 1).map (fun r => (r.offset, r.source_path)) =
      some (-1, some "a.c") ∧
    (findSS exRun3.db.ssources 2).map (fun r => (r.offset, r.source_path)) =
      some (-2, some "b.c") ∧
    threadFramesOf exRun3Again.threads 0 =
      threadFramesOf exRun3.threads 0 ++
        [{ fid := 3, order := 8, ssource := 2, inlined := true }] := by
  decide

/-- C4 counterexample: re-running the expansion on the same
location/frame pair with the same three-tuple response inserts a fourth
frame into the thread — the claimed no-op fails. -/
theorem c4_counterexample :
    (threadFramesOf exRun3.threads 0).length = 3 ∧
    (threadFramesOf exRun3Again.threads 0).length = 4 ∧
    exRun3Again.threads ≠ exRun3.threads := by
  decide

theorem findCrashLoop_of_first_bad (db : DbState) (ts : List ThreadRec)
    (t : ThreadRec) (hft : ts.find? (fun t => t.crashthread) = some t)
    (hbad : db_thread_validate db t = false) :
    findCrashLoop db ts = none := by
  induction ts with
  | nil => simp at hft
  | cons t0 ts ih =>
      cases hc : t0.crashthread with
      | false =>
          simp only [List.find?, hc] at hft
          simp only [findCrashLoop, hc, Bool.not_false, if_true]
          exact ih hft
      | true =>
          simp only [List.find?, hc] at hft
          injection hft with hft
          subst hft
          simp only [findCrashLoop, hc, Bool.not_true, Bool.false_eq_true, if_false, hbad]

/-- C9: beyond the three documented no-usable-stack conditions,
`db_report_to_satyr` also returns `none` when the crash thread (the
first thread flagged `crashthread`) of the report's first backtrace
consists of exactly one frame whose location's symbol is named
`"anonymous function"` with normalized path `"unknown filename"` — a
report whose whole crash thread was synthesized by the JIT repair is
excluded from comparison even though it has a backtrace, threads and a
crash thread. -/
theorem c9_jit_only_report_excluded (db : DbState) (rep : ReportRec)
    (bt : BacktraceRec) (bts : List BacktraceRec) (t : ThreadRec) (f : FrameRec)
    (ss : SymbolSourceRec) (sid : Nat) (s : SymbolRec)
    (hrep : rep.backtraces = bt :: bts)
    (hcrash : bt.threads.find? (fun t => t.crashthread) = some t)
    (hframes : t.frames = [f])
    (hss : findSS db.ssources f.ssource = some ss)
    (hsym : ss.symbol = some sid)
    (hs : findSymbol db.symbols sid = some s)
    (hname : s.name = "anonymous function")
    (hpath : s.normalized_path = "unknown filename") :
    db_report_to_satyr db rep = none := by
  have hbad : db_thread_validate db t = false := by
    simp [db_thread_validate, hframes, hss, hsym, hs, hname, hpath]
  have hne : ¬ bt.threads.isEmpty = true := by
    cases hbt : bt.threads
    · rw [hbt] at hcrash; simp at hcrash
    · simp
  unfold db_report_to_satyr
  rw [hrep]
  show (if bt.threads.isEmpty = true then none else findCrashLoop db bt.threads) = none
  rw [if_neg hne]
  exact findCrashLoop_of_first_bad db bt.threads t hcrash hbad

/-- Witness for C9 on the concrete store `exJitOnlyDb` and report
`exJitOnlyReport`. -/
theorem c9_witness : db_report_to_satyr exJitOnlyDb exJitOnlyReport = none :=
  c9_jit_only_report_excluded exJitOnlyDb exJitOnlyReport
    { hashes := ["h"],
      threads := [{ number := 1, crashthread := true,
                    frames := [{ fid := 0, order := 10, ssource := 0,
                                 inlined := false }] }] }
    []
    { number := 1, crashthread := true,
      frames := [{ fid := 0, order := 10, ssource := 0, inlined := false }] }
    { fid := 0, order := 10, ssource := 0, inlined := false }
    { build_id := none, path := "unknown filename", offset := 0, symbol := some 5,
      source_path := none, line_number := none, hash := none, retrace_fail_count := 0 }
    5
    { name := "anonymous function", normalized_path := "unknown filename",
      nice_name := none }
    rfl rfl rfl rfl rfl rfl rfl rfl
